import Mathlib

/-!
Verification development for the cross-api competition gateway.

We shallowly embed the scoring engine, the run ledger, the liveranking
aggregator and the results-export generator of the repository.  Machine
`int32` values are modelled as `Int`, SQL tables as lists of rows, Go maps
as association lists, and every fallible operation returns `Except` (or a
state paired with an optional error where the original code keeps partial
effects on failure).  Each definition mirrors one Go function; the file
then proves or refutes the specification claims about them.
-/

namespace CrossApi

/-- A row of the `scales` table / the `aggregate.Scale` record:
six door point values keyed by (competition, category, zone). -/
structure Scale where
  competitionId : Int
  category : String
  zone : String
  pointsDoor1 : Int
  pointsDoor2 : Int
  pointsDoor3 : Int
  pointsDoor4 : Int
  pointsDoor5 : Int
  pointsDoor6 : Int
deriving DecidableEq

/-- A row of the `runs` table / the `aggregate.Run` record. -/
structure Run where
  competitionId : Int
  dossard : Int
  runNumber : Int
  zone : String
  door1 : Bool
  door2 : Bool
  door3 : Bool
  door4 : Bool
  door5 : Bool
  door6 : Bool
  penality : Int
  chronoSec : Int
  refereeId : Int
deriving DecidableEq

/-- A row of the `participants` table / the `aggregate.Participant` record. -/
structure Participant where
  competitionId : Int
  dossardNumber : Int
  firstName : String
  lastName : String
  category : String
  gender : String
  club : String
deriving DecidableEq

/-- A row of the `liverankings` table: the six columns touched by
`INSERT INTO liverankings (...)` in `liveranking_sql.go`. -/
structure LiverankingRow where
  competitionId : Int
  dossardNumber : Int
  numberOfRuns : Int
  totalPoints : Int
  penality : Int
  chronoSec : Int
deriving DecidableEq

/-- The `aggregate.Liveranking` value handed to `UpsertLiveranking`
(zero value of every unset field, as `aggregate.NewLiveranking()` builds it). -/
structure LiverankingAgg where
  competitionId : Int
  dossard : Int
  firstName : String
  lastName : String
  category : String
  gender : String
  numberOfRuns : Int
  totalPoints : Int
  penality : Int
  chronoSec : Int
deriving DecidableEq

/-- The relational store: the four tables the scoring/aggregation core
reads and writes, plus the set of existing competition ids. -/
structure DBState where
  competitions : List Int
  participants : List Participant
  scales : List Scale
  runs : List Run
  liverankings : List LiverankingRow
deriving DecidableEq

/-- Typed failures of the core (§7 of the spec), one constructor per
`errors.New` value the modelled code paths can surface. -/
inductive Err where
  | participantNotFound
  | duplicateParticipant
  | scaleNotFound
  | runNotFound
  | duplicateRun
  | participantNotFoundForRun
  | invalidRunData
  | liverankingNotFound
  | competitionNotFound
  | invalidFileFormat
  | invalidRowFormat
  | invalidDossardNumber
  | invalidGender
  | createParticipantFailed (inner : Err)
deriving DecidableEq

/-- The `errors.New` message of each failure, copied from the Go sources;
`AddParticipants` branches on this text, so it is part of the behaviour. -/
def Err.message : Err → String
  | .participantNotFound => "participant not found"
  | .duplicateParticipant => "participant with this competition ID and dossard number already exists"
  | .scaleNotFound => "scale not found"
  | .runNotFound => "run not found"
  | .duplicateRun => "run with this combination of competition ID, run number, and dossard already exists"
  | .participantNotFoundForRun => "participant not found for this run"
  | .invalidRunData => "invalid run data"
  | .liverankingNotFound => "liveranking not found"
  | .competitionNotFound => "competition not found"
  | .invalidFileFormat => "invalid file format: expected CSV or Excel file with columns for dossard number, category, last name, first name, gender (H/F), and club"
  | .invalidRowFormat => "invalid format: expected at least 5 columns (dossard number, category, last name, first name, gender, club)"
  | .invalidDossardNumber => "invalid dossard number"
  | .invalidGender => "invalid gender: expected H or F"
  | .createParticipantFailed inner => "failed to create participant: " ++ inner.message

/-- Query `SELECT ... FROM participants WHERE competition_id = ? AND dossard_number = ?`. -/
def findParticipant (s : DBState) (competitionId dossard : Int) : Option Participant :=
  s.participants.find? fun p =>
    p.competitionId == competitionId && p.dossardNumber == dossard

/-- Query `SELECT ... FROM scales WHERE competition_id = ? AND category = ? AND zone = ?`. -/
def findScale (s : DBState) (competitionId : Int) (category zone : String) : Option Scale :=
  s.scales.find? fun sc =>
    sc.competitionId == competitionId && sc.category == category && sc.zone == zone

/-- The `WHERE competition_id = ? AND dossard_number = ?` key predicate of
the `liverankings` table. -/
def lrKey (competitionId dossard : Int) : LiverankingRow → Bool := fun l =>
  l.competitionId == competitionId && l.dossardNumber == dossard

/-- Query `SELECT ... FROM liverankings WHERE competition_id = ? AND dossard_number = ?`. -/
def findLiveranking (s : DBState) (competitionId dossard : Int) : Option LiverankingRow :=
  s.liverankings.find? (lrKey competitionId dossard)

/-- Query `SELECT ... FROM runs WHERE competition_id = ? AND dossard = ?`. -/
def runsOf (s : DBState) (competitionId dossard : Int) : List Run :=
  s.runs.filter fun r => r.competitionId == competitionId && r.dossard == dossard

/-! ## Scoring engine: the three door-sum sites -/

namespace RunService

/-- The point computation inlined in `RunService.CreateRun`
(service run.go, the six sequential `if run.GetDoorN()` additions). -/
def runTotalPoints (run : Run) (scale : Scale) : Int :=
  let t : Int := 0
  let t := if run.door1 then t + scale.pointsDoor1 else t
  let t := if run.door2 then t + scale.pointsDoor2 else t
  let t := if run.door3 then t + scale.pointsDoor3 else t
  let t := if run.door4 then t + scale.pointsDoor4 else t
  let t := if run.door5 then t + scale.pointsDoor5 else t
  let t := if run.door6 then t + scale.pointsDoor6 else t
  t

end RunService

namespace SQLLiverankingRepository

/-- The per-joined-row point computation inside
`SQLLiverankingRepository.RecalculateLiveranking` (liveranking_sql.go,
`runPoints := 0; if door1 { runPoints += pointsDoor1 } ...`). -/
def recalcRunPoints (door1 door2 door3 door4 door5 door6 : Bool)
    (pointsDoor1 pointsDoor2 pointsDoor3 pointsDoor4 pointsDoor5 pointsDoor6 : Int) : Int :=
  let t : Int := 0
  let t := if door1 then t + pointsDoor1 else t
  let t := if door2 then t + pointsDoor2 else t
  let t := if door3 then t + pointsDoor3 else t
  let t := if door4 then t + pointsDoor4 else t
  let t := if door5 then t + pointsDoor5 else t
  let t := if door6 then t + pointsDoor6 else t
  t

end SQLLiverankingRepository

namespace CompetitionService

/-- The `fmt.Sprintf("%s_%s", category, zone)` scale-map key of the export path. -/
def scaleKey (category zone : String) : String :=
  category ++ "_" ++ zone

/-- Go `map[string]*aggregate.Scale` lookup, modelled on an association list
(keys are unique in a Go map). -/
def lookupScale (scales : List (String × Scale)) (key : String) : Option Scale :=
  (scales.find? fun kv => kv.1 == key).map Prod.snd

/-- Function `CompetitionService.calculateRunPoints` (competition.go): the export-path
scoring site; a missing scale yields 0 (skip), unlike the live path. -/
def calculateRunPoints (run : Run) (scales : List (String × Scale))
    (category zone : String) : Int :=
  match lookupScale scales (scaleKey category zone) with
  | none => 0
  | some scale =>
    let t : Int := 0
    let t := if run.door1 then t + scale.pointsDoor1 else t
    let t := if run.door2 then t + scale.pointsDoor2 else t
    let t := if run.door3 then t + scale.pointsDoor3 else t
    let t := if run.door4 then t + scale.pointsDoor4 else t
    let t := if run.door5 then t + scale.pointsDoor5 else t
    let t := if run.door6 then t + scale.pointsDoor6 else t
    t

end CompetitionService

/-! ## The specification's door-sum formula (§4.1 / §8) -/

/-- The six (passed?, point value) pairs of a run against a scale,
in door order. -/
def doorPairs (run : Run) (scale : Scale) : List (Bool × Int) :=
  [(run.door1, scale.pointsDoor1), (run.door2, scale.pointsDoor2),
   (run.door3, scale.pointsDoor3), (run.door4, scale.pointsDoor4),
   (run.door5, scale.pointsDoor5), (run.door6, scale.pointsDoor6)]

/-- Contribution of one door: its point value if passed, else zero. -/
def doorContrib (p : Bool × Int) : Int :=
  if p.1 then p.2 else 0

/-- Modelled from the spec: `ComputePoints(run, scale)` as the sum over the
six doors of the door's point value when passed and zero when not. -/
def doorSumSpec (run : Run) (scale : Scale) : Int :=
  ((doorPairs run scale).map doorContrib).sum

theorem runTotalPoints_eq_doorSumSpec (run : Run) (scale : Scale) :
    RunService.runTotalPoints run scale = doorSumSpec run scale := by
  simp only [RunService.runTotalPoints, doorSumSpec, doorPairs, doorContrib,
    List.map_cons, List.map_nil, List.sum_cons, List.sum_nil]
  cases run.door1 <;> cases run.door2 <;> cases run.door3 <;>
    cases run.door4 <;> cases run.door5 <;> cases run.door6 <;> simp <;> ring

theorem recalcRunPoints_eq_doorSumSpec (run : Run) (scale : Scale) :
    SQLLiverankingRepository.recalcRunPoints
      run.door1 run.door2 run.door3 run.door4 run.door5 run.door6
      scale.pointsDoor1 scale.pointsDoor2 scale.pointsDoor3
      scale.pointsDoor4 scale.pointsDoor5 scale.pointsDoor6
      = doorSumSpec run scale := by
  simp only [SQLLiverankingRepository.recalcRunPoints, doorSumSpec, doorPairs, doorContrib,
    List.map_cons, List.map_nil, List.sum_cons, List.sum_nil]
  cases run.door1 <;> cases run.door2 <;> cases run.door3 <;>
    cases run.door4 <;> cases run.door5 <;> cases run.door6 <;> simp <;> ring

theorem calculateRunPoints_eq_doorSumSpec (run : Run) (scale : Scale)
    (scales : List (String × Scale)) (category zone : String)
    (h : CompetitionService.lookupScale scales (CompetitionService.scaleKey category zone)
          = some scale) :
    CompetitionService.calculateRunPoints run scales category zone = doorSumSpec run scale := by
  simp only [CompetitionService.calculateRunPoints, h, doorSumSpec, doorPairs, doorContrib,
    List.map_cons, List.map_nil, List.sum_cons, List.sum_nil]
  cases run.door1 <;> cases run.door2 <;> cases run.door3 <;>
    cases run.door4 <;> cases run.door5 <;> cases run.door6 <;> simp <;> ring

theorem doorSumSpec_nonneg (run : Run) (scale : Scale)
    (h1 : 0 ≤ scale.pointsDoor1) (h2 : 0 ≤ scale.pointsDoor2)
    (h3 : 0 ≤ scale.pointsDoor3) (h4 : 0 ≤ scale.pointsDoor4)
    (h5 : 0 ≤ scale.pointsDoor5) (h6 : 0 ≤ scale.pointsDoor6) :
    0 ≤ doorSumSpec run scale := by
  simp only [doorSumSpec, doorPairs, doorContrib,
    List.map_cons, List.map_nil, List.sum_cons, List.sum_nil]
  cases run.door1 <;> cases run.door2 <;> cases run.door3 <;>
    cases run.door4 <;> cases run.door5 <;> cases run.door6 <;> simp <;> omega

theorem doorSumSpec_perm (run : Run) (scale : Scale)
    (l : List (Bool × Int)) (h : l.Perm (doorPairs run scale)) :
    (l.map doorContrib).sum = doorSumSpec run scale := by
  exact (h.map doorContrib).sum_eq

/-- C1.  At all three scoring sites — the live create path
(`RunService.CreateRun`), the recompute path (`RecalculateLiveranking`)
and the export path (`calculateRunPoints`, when the scale is present) —
the computed point total of a run `r` under a scale `s` equals the sum
over the six doors of `s`'s value for each door `r` passes; under the data
model's invariant that the six stored door values are non-negative the
result is non-negative, and the sum is invariant under any reordering of
the doors. -/
theorem scoring_engine_door_sum (run : Run) (scale : Scale)
    (h1 : 0 ≤ scale.pointsDoor1) (h2 : 0 ≤ scale.pointsDoor2)
    (h3 : 0 ≤ scale.pointsDoor3) (h4 : 0 ≤ scale.pointsDoor4)
    (h5 : 0 ≤ scale.pointsDoor5) (h6 : 0 ≤ scale.pointsDoor6) :
    RunService.runTotalPoints run scale = doorSumSpec run scale ∧
    SQLLiverankingRepository.recalcRunPoints
      run.door1 run.door2 run.door3 run.door4 run.door5 run.door6
      scale.pointsDoor1 scale.pointsDoor2 scale.pointsDoor3
      scale.pointsDoor4 scale.pointsDoor5 scale.pointsDoor6 = doorSumSpec run scale ∧
    (∀ (scales : List (String × Scale)) (category zone : String),
      CompetitionService.lookupScale scales (CompetitionService.scaleKey category zone)
          = some scale →
      CompetitionService.calculateRunPoints run scales category zone = doorSumSpec run scale) ∧
    0 ≤ doorSumSpec run scale ∧
    (∀ l : List (Bool × Int), l.Perm (doorPairs run scale) →
      (l.map doorContrib).sum = doorSumSpec run scale) := by
  refine ⟨runTotalPoints_eq_doorSumSpec run scale, recalcRunPoints_eq_doorSumSpec run scale,
    fun scales category zone h => calculateRunPoints_eq_doorSumSpec run scale scales category zone h,
    doorSumSpec_nonneg run scale h1 h2 h3 h4 h5 h6,
    fun l h => doorSumSpec_perm run scale l h⟩

/-- Concrete run used by the C1 witness: doors 1, 3 and 6 passed. -/
def witRun : Run :=
  { competitionId := 1, dossard := 7, runNumber := 1, zone := "A"
    door1 := true, door2 := false, door3 := true
    door4 := false, door5 := false, door6 := true
    penality := 0, chronoSec := 30, refereeId := 2 }

/-- Concrete scale used by the C1 witness. -/
def witScale : Scale :=
  { competitionId := 1, category := "junior", zone := "A"
    pointsDoor1 := 10, pointsDoor2 := 20, pointsDoor3 := 3
    pointsDoor4 := 4, pointsDoor5 := 5, pointsDoor6 := 6 }

/-- Witness for C1 at a concrete run and scale. -/
theorem scoring_engine_door_sum_witness :
    RunService.runTotalPoints witRun witScale = doorSumSpec witRun witScale ∧
    doorSumSpec witRun witScale = 19 :=
  ⟨(scoring_engine_door_sum witRun witScale
      (by decide) (by decide) (by decide) (by decide) (by decide) (by decide)).1,
   by decide⟩

/-! ## Liveranking aggregator: incremental upsert (liveranking_sql.go) -/

namespace SQLLiverankingRepository

/-- Method `SQLLiverankingRepository.UpsertLiveranking`: if an entry exists for
(competition, dossard), add this aggregate's points/penalty/chrono and
bump `number_of_runs` by the literal 1; otherwise insert a fresh entry
with `number_of_runs = 1`, but only if the participant exists. -/
def UpsertLiveranking (s : DBState) (lv : LiverankingAgg) : Except Err DBState :=
  match findLiveranking s lv.competitionId lv.dossard with
  | some _ =>
    Except.ok { s with liverankings := s.liverankings.map fun row =>
      if (lrKey lv.competitionId lv.dossard row) then
        { row with numberOfRuns := row.numberOfRuns + 1
                   totalPoints := row.totalPoints + lv.totalPoints
                   penality := row.penality + lv.penality
                   chronoSec := row.chronoSec + lv.chronoSec }
      else row }
  | none =>
    match findParticipant s lv.competitionId lv.dossard with
    | none => Except.error Err.participantNotFound
    | some _ =>
      Except.ok { s with liverankings := s.liverankings ++
        [{ competitionId := lv.competitionId, dossardNumber := lv.dossard
           numberOfRuns := 1, totalPoints := lv.totalPoints
           penality := lv.penality, chronoSec := lv.chronoSec }] }

end SQLLiverankingRepository

/-! ## Run ledger (run_sql.go) -/

namespace SQLRunRepository

/-- Value of `COALESCE(MAX(run_number), 0)` over a participant's run numbers. -/
def coalesceMax : List Int → Int
  | [] => 0
  | x :: xs => xs.foldl max x

/-- Method `SQLRunRepository.CreateRun`: verify the participant, auto-assign
`max existing + 1` when the caller left `run_number ≤ 0`, refuse a
duplicate (competition, run_number, dossard) key, then append the row.
Returns the stored run as well, since the Go code mutates the caller's
aggregate with the assigned number. -/
def CreateRun (s : DBState) (run : Run) : Except Err (DBState × Run) :=
  match findParticipant s run.competitionId run.dossard with
  | none => Except.error Err.participantNotFoundForRun
  | some _ =>
    let stored :=
      if run.runNumber ≤ 0 then
        { run with runNumber :=
            coalesceMax ((runsOf s run.competitionId run.dossard).map (·.runNumber)) + 1 }
      else run
    if s.runs.any (fun r =>
        r.competitionId == stored.competitionId && r.runNumber == stored.runNumber &&
        r.dossard == stored.dossard) then
      Except.error Err.duplicateRun
    else
      Except.ok ({ s with runs := s.runs ++ [stored] }, stored)

/-- Method `SQLRunRepository.UpdateRun`: replace the mutable fields of the row with
the run's composite key; zero rows affected signals `ErrRunNotFound`. -/
def UpdateRun (s : DBState) (run : Run) : Except Err DBState :=
  if s.runs.any (fun r =>
      r.competitionId == run.competitionId && r.runNumber == run.runNumber &&
      r.dossard == run.dossard) then
    Except.ok { s with runs := s.runs.map fun r =>
      if r.competitionId == run.competitionId && r.runNumber == run.runNumber &&
          r.dossard == run.dossard then
        { r with zone := run.zone
                 door1 := run.door1, door2 := run.door2, door3 := run.door3
                 door4 := run.door4, door5 := run.door5, door6 := run.door6
                 penality := run.penality, chronoSec := run.chronoSec
                 refereeId := run.refereeId }
      else r }
  else Except.error Err.runNotFound

/-- Method `SQLRunRepository.DeleteRun`: delete by composite key; zero rows affected
signals `ErrRunNotFound`. -/
def DeleteRun (s : DBState) (competitionId runNumber dossard : Int) : Except Err DBState :=
  if s.runs.any (fun r =>
      r.competitionId == competitionId && r.runNumber == runNumber &&
      r.dossard == dossard) then
    Except.ok { s with runs := s.runs.filter fun r =>
      !(r.competitionId == competitionId && r.runNumber == runNumber &&
        r.dossard == dossard) }
  else Except.error Err.runNotFound

end SQLRunRepository

/-! ## Run service (service run.go) -/

namespace RunService

/-- The liveranking aggregate `RunService.CreateRun` builds for the upsert:
the run's computed points, penalty and chrono, the participant's identity,
and the zero value everywhere the service sets nothing. -/
def aggOf (run : Run) (participant : Participant) (scale : Scale) : LiverankingAgg :=
  { competitionId := run.competitionId, dossard := run.dossard
    firstName := participant.firstName, lastName := participant.lastName
    category := participant.category, gender := ""
    numberOfRuns := 0, totalPoints := runTotalPoints run scale
    penality := run.penality, chronoSec := run.chronoSec }

/-- Method `RunService.CreateRun`: validate, resolve the participant's category,
require a scale for (competition, category, zone), insert the run, compute
its points and upsert the liveranking entry (the fast additive path). -/
def CreateRunSvc (s : DBState) (run : Run) : Except Err DBState :=
  if run.competitionId ≤ 0 ∨ run.dossard ≤ 0 ∨ run.zone = "" then
    Except.error Err.invalidRunData
  else
    match findParticipant s run.competitionId run.dossard with
    | none => Except.error Err.participantNotFound
    | some participant =>
      match findScale s run.competitionId participant.category run.zone with
      | none => Except.error Err.scaleNotFound
      | some scale =>
        match SQLRunRepository.CreateRun s run with
        | Except.error e => Except.error e
        | Except.ok (s1, _) =>
          SQLLiverankingRepository.UpsertLiveranking s1 (aggOf run participant scale)

/-- Method `RunService.UpdateRun`: a pure delegation to the repository — it does
NOT touch the liveranking. -/
def UpdateRunSvc (s : DBState) (run : Run) : Except Err DBState :=
  SQLRunRepository.UpdateRun s run

/-- Method `RunService.DeleteRun`: a pure delegation to the repository — it does
NOT touch the liveranking. -/
def DeleteRunSvc (s : DBState) (competitionId runNumber dossard : Int) : Except Err DBState :=
  SQLRunRepository.DeleteRun s competitionId runNumber dossard

/-- Folding `CreateRunSvc` over a list of run payloads (N successive
successful HTTP run creations). -/
def createRuns (s : DBState) : List Run → Except Err DBState
  | [] => Except.ok s
  | r :: rs =>
    match CreateRunSvc s r with
    | Except.error e => Except.error e
    | Except.ok s' => createRuns s' rs

end RunService

/-! ## Liveranking recompute (liveranking_sql.go, RecalculateLiveranking) -/

namespace SQLLiverankingRepository

/-- The rows of the recompute query: the participant's runs inner-joined to
the participant record and to the scale for (competition, category, zone).
Runs whose zone has no scale produce no row (skip). -/
def recalcRows (s : DBState) (competitionId dossard : Int) : List (Run × Scale) :=
  (runsOf s competitionId dossard).filterMap fun r =>
    (findParticipant s competitionId dossard).bind fun p =>
      (findScale s competitionId p.category r.zone).map fun sc => (r, sc)

/-- The four accumulated totals of `RecalculateLiveranking`'s scan loop:
(number of joined rows, summed points, summed penalties, summed chrono). -/
def recalcTotals (s : DBState) (competitionId dossard : Int) : Int × Int × Int × Int :=
  let rows := recalcRows s competitionId dossard
  ((rows.length : Int),
   (rows.map fun rc =>
     recalcRunPoints rc.1.door1 rc.1.door2 rc.1.door3 rc.1.door4 rc.1.door5 rc.1.door6
       rc.2.pointsDoor1 rc.2.pointsDoor2 rc.2.pointsDoor3
       rc.2.pointsDoor4 rc.2.pointsDoor5 rc.2.pointsDoor6).sum,
   (rows.map fun rc => rc.1.penality).sum,
   (rows.map fun rc => rc.1.chronoSec).sum)

/-- Method `SQLLiverankingRepository.RecalculateLiveranking`: re-derive the entry
for (competition, dossard) from all remaining runs; delete the entry when
no joined run remains, otherwise overwrite (or insert) the entry with the
freshly computed totals. -/
def RecalculateLiveranking (s : DBState) (competitionId dossard : Int) : DBState :=
  let t := recalcTotals s competitionId dossard
  if t.1 == 0 then
    { s with liverankings := s.liverankings.filter fun l =>
        !(l.competitionId == competitionId && l.dossardNumber == dossard) }
  else
    match findLiveranking s competitionId dossard with
    | some _ =>
      { s with liverankings := s.liverankings.map fun l =>
          if l.competitionId == competitionId && l.dossardNumber == dossard then
            { l with numberOfRuns := t.1, totalPoints := t.2.1
                     penality := t.2.2.1, chronoSec := t.2.2.2 }
          else l }
    | none =>
      { s with liverankings := s.liverankings ++
          [{ competitionId := competitionId, dossardNumber := dossard
             numberOfRuns := t.1, totalPoints := t.2.1
             penality := t.2.2.1, chronoSec := t.2.2.2 }] }

end SQLLiverankingRepository

/-! ## List helpers for keyed tables -/

theorem find?_append_of_none {α : Type} (p : α → Bool) (l₁ l₂ : List α)
    (h : l₁.find? p = none) : (l₁ ++ l₂).find? p = l₂.find? p := by
  induction l₁ with
  | nil => simp
  | cons y ys ih =>
    cases hp : p y with
    | true => simp [List.find?, hp] at h
    | false =>
      simp only [List.find?, hp] at h
      simp only [List.cons_append, List.find?, hp]
      exact ih h

theorem find?_map_update {α : Type} (p : α → Bool) (upd : α → α)
    (hk : ∀ x, p (upd x) = p x) (l : List α) :
    (l.map fun x => if p x then upd x else x).find? p = (l.find? p).map upd := by
  induction l with
  | nil => simp
  | cons y ys ih =>
    cases hp : p y with
    | true => simp [List.find?, hp, hk y]
    | false => simp [List.find?, hp, ih]

theorem le_foldl_max_init (xs : List Int) (x : Int) : x ≤ xs.foldl max x := by
  induction xs generalizing x with
  | nil => simp
  | cons y ys ih => exact le_trans (le_max_left x y) (ih (max x y))

theorem mem_le_foldl_max (xs : List Int) (x a : Int) (h : a ∈ xs) : a ≤ xs.foldl max x := by
  induction xs generalizing x with
  | nil => cases h
  | cons y ys ih =>
    rcases List.mem_cons.mp h with h | h
    · subst h
      exact le_trans (le_max_right x a) (le_foldl_max_init ys (max x a))
    · exact ih (max x y) h

theorem mem_le_coalesceMax (l : List Int) (a : Int) (h : a ∈ l) :
    a ≤ SQLRunRepository.coalesceMax l := by
  cases l with
  | nil => cases h
  | cons x xs =>
    rcases List.mem_cons.mp h with h | h
    · subst h; exact le_foldl_max_init xs a
    · exact mem_le_foldl_max xs x a h

/-- The auto-assigned run number `COALESCE(MAX, 0) + 1` never collides with
an existing (competition, run_number, dossard) key. -/
theorem auto_runNumber_not_dup (s : DBState) (c d : Int) :
    (s.runs.any fun r =>
      r.competitionId == c &&
      r.runNumber == (SQLRunRepository.coalesceMax ((runsOf s c d).map (·.runNumber)) + 1) &&
      r.dossard == d) = false := by
  rw [List.any_eq_false]
  intro r hr
  simp only [Bool.and_eq_true, beq_iff_eq, not_and]
  intro h1 h2
  obtain ⟨hcomp, hnum⟩ := h1
  have hmem : r ∈ runsOf s c d := by
    simp only [runsOf, List.mem_filter, Bool.and_eq_true, beq_iff_eq]
    exact ⟨hr, ⟨hcomp, h2⟩⟩
  have hmax := mem_le_coalesceMax ((runsOf s c d).map (·.runNumber)) r.runNumber
    (List.mem_map_of_mem _ hmem)
  omega

/-- Adding `lv`'s deltas to an entry, as `UpsertLiveranking`'s UPDATE does. -/
def lrAdd (lv : LiverankingAgg) (row : LiverankingRow) : LiverankingRow :=
  { row with numberOfRuns := row.numberOfRuns + 1
             totalPoints := row.totalPoints + lv.totalPoints
             penality := row.penality + lv.penality
             chronoSec := row.chronoSec + lv.chronoSec }

theorem upsert_update_eq (s : DBState) (lv : LiverankingAgg) (e : LiverankingRow)
    (h : findLiveranking s lv.competitionId lv.dossard = some e) :
    SQLLiverankingRepository.UpsertLiveranking s lv =
      Except.ok { s with liverankings := s.liverankings.map fun row =>
        if (lrKey lv.competitionId lv.dossard row) then lrAdd lv row else row } := by
  simp only [SQLLiverankingRepository.UpsertLiveranking, h]
  rfl

theorem upsert_insert_eq (s : DBState) (lv : LiverankingAgg) (p : Participant)
    (h : findLiveranking s lv.competitionId lv.dossard = none)
    (hp : findParticipant s lv.competitionId lv.dossard = some p) :
    SQLLiverankingRepository.UpsertLiveranking s lv =
      Except.ok { s with liverankings := s.liverankings ++
        [{ competitionId := lv.competitionId, dossardNumber := lv.dossard
           numberOfRuns := 1, totalPoints := lv.totalPoints
           penality := lv.penality, chronoSec := lv.chronoSec }] } := by
  simp only [SQLLiverankingRepository.UpsertLiveranking, h, hp]

/-! ## Step lemmas for the live create path -/

/-- The run actually stored by `CreateRun` when the caller left
`run_number ≤ 0`: the auto-assigned next number. -/
def autoStored (s : DBState) (run : Run) : Run :=
  { run with runNumber :=
      SQLRunRepository.coalesceMax ((runsOf s run.competitionId run.dossard).map (·.runNumber)) + 1 }

theorem createRun_repo_auto (s : DBState) (run : Run) (p : Participant)
    (hn : run.runNumber ≤ 0)
    (hp : findParticipant s run.competitionId run.dossard = some p) :
    SQLRunRepository.CreateRun s run =
      Except.ok ({ s with runs := s.runs ++ [autoStored s run] }, autoStored s run) := by
  have hdup := auto_runNumber_not_dup s run.competitionId run.dossard
  simp only [SQLRunRepository.CreateRun, hp, if_pos hn, autoStored]
  simp [hdup]

theorem createRunSvc_step_none (s : DBState) (run : Run) (p : Participant) (sc : Scale)
    (hc : 0 < run.competitionId) (hd : 0 < run.dossard) (hz : run.zone ≠ "")
    (hn : run.runNumber ≤ 0)
    (hp : findParticipant s run.competitionId run.dossard = some p)
    (hs : findScale s run.competitionId p.category run.zone = some sc)
    (hl : findLiveranking s run.competitionId run.dossard = none) :
    RunService.CreateRunSvc s run = Except.ok
      { s with
        runs := s.runs ++ [autoStored s run]
        liverankings := s.liverankings ++
          [{ competitionId := run.competitionId, dossardNumber := run.dossard
             numberOfRuns := 1, totalPoints := RunService.runTotalPoints run sc
             penality := run.penality, chronoSec := run.chronoSec }] } := by
  have hvalid : ¬(run.competitionId ≤ 0 ∨ run.dossard ≤ 0 ∨ run.zone = "") := by
    push_neg
    exact ⟨by omega, by omega, hz⟩
  have hrepo := createRun_repo_auto s run p hn hp
  simp only [RunService.CreateRunSvc, if_neg hvalid, hp, hs, hrepo]
  exact upsert_insert_eq _ _ p hl hp

theorem createRunSvc_step_some (s : DBState) (run : Run) (p : Participant) (sc : Scale)
    (e : LiverankingRow)
    (hc : 0 < run.competitionId) (hd : 0 < run.dossard) (hz : run.zone ≠ "")
    (hn : run.runNumber ≤ 0)
    (hp : findParticipant s run.competitionId run.dossard = some p)
    (hs : findScale s run.competitionId p.category run.zone = some sc)
    (hl : findLiveranking s run.competitionId run.dossard = some e) :
    RunService.CreateRunSvc s run = Except.ok
      { s with
        runs := s.runs ++ [autoStored s run]
        liverankings := s.liverankings.map fun row =>
          if (lrKey run.competitionId run.dossard row) then
            lrAdd (RunService.aggOf run p sc) row
          else row } := by
  have hvalid : ¬(run.competitionId ≤ 0 ∨ run.dossard ≤ 0 ∨ run.zone = "") := by
    push_neg
    exact ⟨by omega, by omega, hz⟩
  have hrepo := createRun_repo_auto s run p hn hp
  simp only [RunService.CreateRunSvc, if_neg hvalid, hp, hs, hrepo]
  exact upsert_update_eq _ _ e hl

theorem findLiveranking_append_fresh (s : DBState) (c d : Int) (row : LiverankingRow)
    (lrs : List Run) (hl : findLiveranking s c d = none)
    (hc : row.competitionId = c) (hd : row.dossardNumber = d) :
    findLiveranking { s with runs := lrs, liverankings := s.liverankings ++ [row] } c d
      = some row := by
  have h1 : (s.liverankings ++ [row]).find? (lrKey c d)
      = [row].find? (lrKey c d) :=
    find?_append_of_none _ _ _ hl
  simp only [findLiveranking] at *
  rw [h1]
  simp [List.find?, lrKey, hc, hd]

theorem findLiveranking_map_update (s : DBState) (c d : Int) (lv : LiverankingAgg)
    (e : LiverankingRow) (lrs : List Run)
    (hl : findLiveranking s c d = some e) :
    findLiveranking
      { s with runs := lrs
               liverankings := s.liverankings.map fun row =>
                 if (lrKey c d row) then lrAdd lv row else row } c d
      = some (lrAdd lv e) := by
  have hk : ∀ row, lrKey c d (lrAdd lv row) = lrKey c d row := by
    intro row
    simp [lrKey, lrAdd]
  have h2 := find?_map_update (lrKey c d) (lrAdd lv) hk s.liverankings
  simp only [findLiveranking] at *
  rw [h2, hl, Option.map_some']

/-- Observe the liveranking entry for (c, d) after a fallible operation:
`none` when the operation failed, otherwise the lookup result. -/
def entryAfter (res : Except Err DBState) (c d : Int) : Option (Option LiverankingRow) :=
  match res with
  | Except.ok s => some (findLiveranking s c d)
  | Except.error _ => none

theorem sum_map_const_run (rs : List Run) (f : Run → Int) (v : Int)
    (h : ∀ r ∈ rs, f r = v) : (rs.map f).sum = rs.length * v := by
  induction rs with
  | nil => simp
  | cons r rest ih =>
    simp only [List.map_cons, List.sum_cons, List.length_cons]
    rw [h r (List.mem_cons_self _ _), ih fun x hx => h x (List.mem_cons_of_mem r hx)]
    push_cast
    ring

/-- Folding successful creations over an existing entry adds exactly each
run's points, penalty and chrono, and counts each run once. -/
theorem createRuns_from_entry (c d : Int) (z : String) (p : Participant) (sc : Scale)
    (hc : 0 < c) (hd : 0 < d) (hz : z ≠ "") :
    ∀ (rs : List Run) (s : DBState) (e : LiverankingRow),
      (∀ r ∈ rs, r.competitionId = c ∧ r.dossard = d ∧ r.zone = z ∧ r.runNumber ≤ 0) →
      findParticipant s c d = some p →
      findScale s c p.category z = some sc →
      findLiveranking s c d = some e →
      ∃ s', RunService.createRuns s rs = Except.ok s' ∧
        findLiveranking s' c d = some
          { competitionId := e.competitionId, dossardNumber := e.dossardNumber
            numberOfRuns := e.numberOfRuns + rs.length
            totalPoints := e.totalPoints + (rs.map fun r => RunService.runTotalPoints r sc).sum
            penality := e.penality + (rs.map (·.penality)).sum
            chronoSec := e.chronoSec + (rs.map (·.chronoSec)).sum } := by
  intro rs
  induction rs with
  | nil =>
    intro s e _ _ _ hl
    exact ⟨s, rfl, by simpa using hl⟩
  | cons r rest ih =>
    intro s e hall hp hs hl
    obtain ⟨hrc, hrd, hrz, hrn⟩ := hall r (List.mem_cons_self _ _)
    have hp' : findParticipant s r.competitionId r.dossard = some p := by
      rw [hrc, hrd]; exact hp
    have hs' : findScale s r.competitionId p.category r.zone = some sc := by
      rw [hrc, hrz]; exact hs
    have hl' : findLiveranking s r.competitionId r.dossard = some e := by
      rw [hrc, hrd]; exact hl
    have hstep := createRunSvc_step_some s r p sc e
      (by omega) (by omega) (by rw [hrz]; exact hz) hrn hp' hs' hl'
    set s1 : DBState :=
      { s with
        runs := s.runs ++ [autoStored s r]
        liverankings := s.liverankings.map fun row =>
          if (lrKey r.competitionId r.dossard row) then
            lrAdd (RunService.aggOf r p sc) row
          else row } with hs1
    have hl1 : findLiveranking s1 c d = some (lrAdd (RunService.aggOf r p sc) e) := by
      rw [hs1, ← hrc, ← hrd]
      exact findLiveranking_map_update s r.competitionId r.dossard
        (RunService.aggOf r p sc) e (s.runs ++ [autoStored s r]) hl'
    obtain ⟨s', hok, hentry⟩ := ih s1 (lrAdd (RunService.aggOf r p sc) e)
      (fun x hx => hall x (List.mem_cons_of_mem r hx)) hp hs hl1
    refine ⟨s', ?_, ?_⟩
    · simp only [RunService.createRuns, hstep]
      exact hok
    · rw [hentry]
      simp only [lrAdd, RunService.aggOf, List.map_cons, List.sum_cons, List.length_cons]
      rw [Option.some.injEq, LiverankingRow.mk.injEq]
      push_cast
      refine ⟨rfl, rfl, by ring, by ring, by ring, by ring⟩

/-- C2.  Starting from a participant with no runs and no liveranking entry,
creating N ≥ 1 runs for them — all on the same zone, hence scored by the
same scale, and all with the same door pattern — succeeds and leaves a
liveranking entry with `number_of_runs = N`, `total_points` = N times the
single-run point total, and penalty and chrono totals equal to the sums of
the per-run values: each `CreateRun` either inserts an entry initialized
from that run or adds exactly that run's points, penalty and chrono. -/
theorem liveranking_additive_over_creations (c d pts : Int) (z : String)
    (p : Participant) (sc : Scale) (s : DBState) (rs : List Run)
    (hc : 0 < c) (hd : 0 < d) (hz : z ≠ "")
    (hall : ∀ r ∈ rs, r.competitionId = c ∧ r.dossard = d ∧ r.zone = z ∧ r.runNumber ≤ 0)
    (hpts : ∀ r ∈ rs, RunService.runTotalPoints r sc = pts)
    (hp : findParticipant s c d = some p)
    (hs : findScale s c p.category z = some sc)
    (_hnoruns : runsOf s c d = [])
    (hfresh : findLiveranking s c d = none)
    (hne : rs ≠ []) :
    entryAfter (RunService.createRuns s rs) c d = some (some
      { competitionId := c, dossardNumber := d
        numberOfRuns := (rs.length : Int)
        totalPoints := (rs.length : Int) * pts
        penality := (rs.map (·.penality)).sum
        chronoSec := (rs.map (·.chronoSec)).sum }) := by
  match rs, hne with
  | r :: rest, _ =>
    obtain ⟨hrc, hrd, hrz, hrn⟩ := hall r (List.mem_cons_self _ _)
    have hp' : findParticipant s r.competitionId r.dossard = some p := by
      rw [hrc, hrd]; exact hp
    have hs' : findScale s r.competitionId p.category r.zone = some sc := by
      rw [hrc, hrz]; exact hs
    have hl' : findLiveranking s r.competitionId r.dossard = none := by
      rw [hrc, hrd]; exact hfresh
    have hstep := createRunSvc_step_none s r p sc
      (by omega) (by omega) (by rw [hrz]; exact hz) hrn hp' hs' hl'
    set row1 : LiverankingRow :=
      { competitionId := r.competitionId, dossardNumber := r.dossard
        numberOfRuns := 1, totalPoints := RunService.runTotalPoints r sc
        penality := r.penality, chronoSec := r.chronoSec } with hrow1
    set s1 : DBState :=
      { s with runs := s.runs ++ [autoStored s r]
               liverankings := s.liverankings ++ [row1] } with hs1
    have hl1 : findLiveranking s1 c d = some row1 := by
      rw [hs1]
      exact findLiveranking_append_fresh s c d row1 (s.runs ++ [autoStored s r]) hfresh
        (by rw [hrow1]; exact hrc) (by rw [hrow1]; exact hrd)
    obtain ⟨s', hok, hentry⟩ := createRuns_from_entry c d z p sc hc hd hz rest s1 row1
      (fun x hx => hall x (List.mem_cons_of_mem r hx)) hp hs hl1
    have hrun : RunService.createRuns s (r :: rest) = Except.ok s' := by
      simp only [RunService.createRuns, hstep]
      exact hok
    simp only [hrun, entryAfter]
    rw [hentry]
    have hsum : (rest.map fun x => RunService.runTotalPoints x sc).sum
        = (rest.length : Int) * pts :=
      sum_map_const_run rest _ pts fun x hx => hpts x (List.mem_cons_of_mem r hx)
    have hptsr := hpts r (List.mem_cons_self _ _)
    simp only [hrow1, Option.some.injEq, LiverankingRow.mk.injEq]
    refine ⟨hrc, hrd, ?_, ?_, ?_, ?_⟩
    · push_cast [List.length_cons]
      ring
    · rw [hsum, hptsr]
      push_cast [List.length_cons]
      ring
    · simp [List.map_cons, List.sum_cons]
    · simp [List.map_cons, List.sum_cons]

/-- Concrete base state for the C2/C6/C7 witnesses: competition 1 with one
junior participant (dossard 7), one scale for zone A, no runs, no entries. -/
def witState : DBState :=
  { competitions := [1]
    participants := [{ competitionId := 1, dossardNumber := 7, firstName := "a"
                       lastName := "b", category := "junior", gender := "H", club := "" }]
    scales := [witScale]
    runs := []
    liverankings := [] }

/-- Concrete create payload for the C2 witness: zone A, door 1 passed,
penalty 5, chrono 30, no explicit run number. -/
def witPayload : Run :=
  { competitionId := 1, dossard := 7, runNumber := 0, zone := "A"
    door1 := true, door2 := false, door3 := false
    door4 := false, door5 := false, door6 := false
    penality := 5, chronoSec := 30, refereeId := 2 }

/-- Witness for C2: creating the same payload three times yields the entry
(3 runs, 3 × 10 points, 15 penalty, 90 chrono). -/
theorem liveranking_additive_over_creations_witness :
    entryAfter (RunService.createRuns witState
        (List.replicate 3 witPayload)) 1 7 = some (some
      { competitionId := 1, dossardNumber := 7, numberOfRuns := 3
        totalPoints := 30, penality := 15, chronoSec := 90 }) := by
  have h := liveranking_additive_over_creations 1 7 10 "A"
    { competitionId := 1, dossardNumber := 7, firstName := "a"
      lastName := "b", category := "junior", gender := "H", club := "" }
    witScale witState (List.replicate 3 witPayload)
    (by decide) (by decide) (by decide)
    (by intro r hr; rw [List.eq_of_mem_replicate hr]; exact ⟨rfl, rfl, rfl, by decide⟩)
    (by intro r hr; rw [List.eq_of_mem_replicate hr]; decide)
    (by decide) (by decide) (by decide) (by decide) (by decide)
  rw [h]
  decide

theorem foldl_max_mem (xs : List Int) (x : Int) :
    xs.foldl max x ∈ x :: xs := by
  induction xs generalizing x with
  | nil => simp
  | cons y ys ih =>
    have h := ih (max x y)
    rw [List.foldl_cons]
    rcases List.mem_cons.mp h with h1 | h1
    · rw [h1]
      rcases max_choice x y with hm | hm <;> rw [hm]
      · exact List.mem_cons_self _ _
      · exact List.mem_cons_of_mem _ (List.mem_cons_self _ _)
    · exact List.mem_cons_of_mem _ (List.mem_cons_of_mem _ h1)

theorem coalesceMax_mem (l : List Int) (h : l ≠ []) :
    SQLRunRepository.coalesceMax l ∈ l := by
  cases l with
  | nil => exact absurd rfl h
  | cons x xs => exact foldl_max_mem xs x

/-- C6.  When `CreateRun` is called with `run_number ≤ 0`, the stored run
receives the participant's maximum existing run number plus one (`COALESCE
(MAX(run_number), 0) + 1`), which is 1 when the participant has no runs;
the assigned number is a strict upper bound of the existing numbers and,
when runs exist, exceeds an actual stored number by exactly one. -/
theorem createRun_auto_numbering (s : DBState) (run : Run) (p : Participant)
    (hn : run.runNumber ≤ 0)
    (hp : findParticipant s run.competitionId run.dossard = some p) :
    SQLRunRepository.CreateRun s run =
      Except.ok ({ s with runs := s.runs ++ [autoStored s run] }, autoStored s run) ∧
    (autoStored s run).runNumber =
      SQLRunRepository.coalesceMax
        ((runsOf s run.competitionId run.dossard).map (·.runNumber)) + 1 ∧
    (runsOf s run.competitionId run.dossard = [] → (autoStored s run).runNumber = 1) ∧
    (∀ r ∈ runsOf s run.competitionId run.dossard,
      r.runNumber < (autoStored s run).runNumber) ∧
    (runsOf s run.competitionId run.dossard ≠ [] →
      ∃ r ∈ runsOf s run.competitionId run.dossard,
        (autoStored s run).runNumber = r.runNumber + 1) := by
  refine ⟨createRun_repo_auto s run p hn hp, rfl, ?_, ?_, ?_⟩
  · intro h
    simp [autoStored, h, SQLRunRepository.coalesceMax]
  · intro r hr
    have := mem_le_coalesceMax ((runsOf s run.competitionId run.dossard).map (·.runNumber))
      r.runNumber (List.mem_map_of_mem _ hr)
    simp only [autoStored]
    omega
  · intro h
    have hmem := coalesceMax_mem ((runsOf s run.competitionId run.dossard).map (·.runNumber))
      (by simpa using h)
    obtain ⟨r, hr, hrn⟩ := List.mem_map.mp hmem
    exact ⟨r, hr, by simp only [autoStored]; omega⟩

/-- Runs with explicit numbers 1, 2 and 5 already stored for the witness
participant. -/
def witState6 : DBState :=
  { witState with runs :=
      [{ witPayload with runNumber := 1 },
       { witPayload with runNumber := 2 },
       { witPayload with runNumber := 5 }] }

/-- Witness for C6: after explicit run number 5, the next auto-assigned
number is 6. -/
theorem createRun_auto_numbering_witness :
    (SQLRunRepository.CreateRun witState6 witPayload).toOption.map
        (fun pr => pr.2.runNumber) = some 6 := by
  have h := (createRun_auto_numbering witState6 witPayload
    { competitionId := 1, dossardNumber := 7, firstName := "a"
      lastName := "b", category := "junior", gender := "H", club := "" }
    (by decide) (by decide)).1
  rw [h]
  decide

/-- C7.  On the live create path, when no scale exists for the
participant's category and the run's zone, `CreateRun` fails with the
scale-not-found error before performing any write: the returned value is an
error (so the caller's state is unchanged — the run insert and the
liveranking upsert are only reached after a successful scale lookup), and
the run is never scored as zero. -/
theorem createRun_missing_scale_errors (s : DBState) (run : Run) (p : Participant)
    (hc : 0 < run.competitionId) (hd : 0 < run.dossard) (hz : run.zone ≠ "")
    (hp : findParticipant s run.competitionId run.dossard = some p)
    (hs : findScale s run.competitionId p.category run.zone = none) :
    RunService.CreateRunSvc s run = Except.error Err.scaleNotFound ∧
    ∀ s', RunService.CreateRunSvc s run ≠ Except.ok s' := by
  have hvalid : ¬(run.competitionId ≤ 0 ∨ run.dossard ≤ 0 ∨ run.zone = "") := by
    push_neg
    exact ⟨by omega, by omega, hz⟩
  have h : RunService.CreateRunSvc s run = Except.error Err.scaleNotFound := by
    simp only [RunService.CreateRunSvc, if_neg hvalid, hp, hs]
  exact ⟨h, fun s' hok => by rw [h] at hok; cases hok⟩

/-- A base state for the C7 witness: the witness participant exists but no
scale is stored for zone B. -/
def witPayloadB : Run :=
  { witPayload with zone := "B" }

/-- Witness for C7: creating a run on zone B (no scale) errors out. -/
theorem createRun_missing_scale_errors_witness :
    RunService.CreateRunSvc witState witPayloadB = Except.error Err.scaleNotFound :=
  (createRun_missing_scale_errors witState witPayloadB
    { competitionId := 1, dossardNumber := 7, firstName := "a"
      lastName := "b", category := "junior", gender := "H", club := "" }
    (by decide) (by decide) (by decide) (by decide) (by decide)).1

/-- C10.  A successful `UpsertLiveranking` always moves `number_of_runs`
up by exactly one — the UPDATE adds the literal 1 and the INSERT stores the
literal 1 — regardless of the `numberOfRuns` value carried on the passed
aggregate (which is never read); and when no entry exists, the insert
happens only if the participant exists, otherwise the call fails with
`ErrParticipantNotFound` and no state is produced. -/
theorem upsert_run_count_increment (s : DBState) (lv : LiverankingAgg) :
    (∀ e, findLiveranking s lv.competitionId lv.dossard = some e →
      entryAfter (SQLLiverankingRepository.UpsertLiveranking s lv)
          lv.competitionId lv.dossard
        = some (some (lrAdd lv e))) ∧
    (findLiveranking s lv.competitionId lv.dossard = none →
      (∀ pp, findParticipant s lv.competitionId lv.dossard = some pp →
        entryAfter (SQLLiverankingRepository.UpsertLiveranking s lv)
            lv.competitionId lv.dossard
          = some (some { competitionId := lv.competitionId, dossardNumber := lv.dossard
                         numberOfRuns := 1, totalPoints := lv.totalPoints
                         penality := lv.penality, chronoSec := lv.chronoSec })) ∧
      (findParticipant s lv.competitionId lv.dossard = none →
        SQLLiverankingRepository.UpsertLiveranking s lv
          = Except.error Err.participantNotFound)) := by
  refine ⟨?_, fun hnone => ⟨?_, ?_⟩⟩
  · intro e he
    rw [upsert_update_eq s lv e he]
    simp only [entryAfter]
    rw [findLiveranking_map_update s lv.competitionId lv.dossard lv e s.runs he]
  · intro pp hpp
    rw [upsert_insert_eq s lv pp hnone hpp]
    simp only [entryAfter]
    rw [findLiveranking_append_fresh s lv.competitionId lv.dossard _ s.runs hnone rfl rfl]
  · intro hnopp
    simp only [SQLLiverankingRepository.UpsertLiveranking, hnone, hnopp]

/-- An aggregate carrying a bogus `numberOfRuns = 42`, for the C10 witness. -/
def witAgg : LiverankingAgg :=
  { competitionId := 1, dossard := 7, firstName := "a", lastName := "b"
    category := "junior", gender := "H", numberOfRuns := 42
    totalPoints := 10, penality := 5, chronoSec := 30 }

/-- A state with an existing entry of 2 runs for the C10 witness. -/
def witState10 : DBState :=
  { witState with liverankings :=
      [{ competitionId := 1, dossardNumber := 7, numberOfRuns := 2
         totalPoints := 20, penality := 3, chronoSec := 60 }] }

/-- Witness for C10: upserting the 42-run aggregate over a 2-run entry
yields 3 runs, not 44. -/
theorem upsert_run_count_increment_witness :
    entryAfter (SQLLiverankingRepository.UpsertLiveranking witState10 witAgg) 1 7
      = some (some { competitionId := 1, dossardNumber := 7, numberOfRuns := 3
                     totalPoints := 30, penality := 8, chronoSec := 90 }) := by
  have h := (upsert_run_count_increment witState10 witAgg).1
    { competitionId := 1, dossardNumber := 7, numberOfRuns := 2
      totalPoints := 20, penality := 3, chronoSec := 60 }
    (by decide)
  exact h.trans (by decide)

/-! ## C3/C4: run mutation does not re-derive the liveranking -/

/-- A stored run for the mutation scenarios: dossard 7, run 1, zone A,
door 1 passed (worth 10), no penalty, 30 s. -/
def bugRun : Run :=
  { competitionId := 1, dossard := 7, runNumber := 1, zone := "A"
    door1 := true, door2 := false, door3 := false
    door4 := false, door5 := false, door6 := false
    penality := 0, chronoSec := 30, refereeId := 2 }

/-- State after creating `bugRun`: the run and the matching liveranking
entry (1 run, 10 points, 0 penalty, 30 s) both exist. -/
def bugState : DBState :=
  { competitions := [1]
    participants := [{ competitionId := 1, dossardNumber := 7, firstName := "a"
                       lastName := "b", category := "junior", gender := "H", club := "" }]
    scales := [witScale]
    runs := [bugRun]
    liverankings := [{ competitionId := 1, dossardNumber := 7, numberOfRuns := 1
                       totalPoints := 10, penality := 0, chronoSec := 30 }] }

/-- The admin's update: door 1 now failed, penalty 5. -/
def bugRunUpd : Run :=
  { bugRun with door1 := false, penality := 5 }

/-- C3 (failing input).  `RunService.UpdateRun` merely delegates to the
repository: after updating `bugRun` to `bugRunUpd` the liveranking entry
still holds the stale totals (1 run, 10 points, 0 penalty), whereas the
re-derivation from the remaining runs joined to their scales — the very
computation `RecalculateLiveranking` implements but nobody calls — yields
(1 run, 0 points, 5 penalty).  This contradicts both the specification and
the handler's own documented behaviour ("recalculates liveranking"). -/
theorem updateRun_skips_rederivation :
    (RunService.UpdateRunSvc bugState bugRunUpd).toOption.map
        (fun s' => (findLiveranking s' 1 7,
                    SQLLiverankingRepository.recalcTotals s' 1 7))
      = some (some { competitionId := 1, dossardNumber := 7, numberOfRuns := 1
                     totalPoints := 10, penality := 0, chronoSec := 30 },
              (1, 0, 5, 30)) := by
  decide

/-- C4 (failing input).  `RunService.DeleteRun` merely delegates to the
repository: deleting the participant's only run succeeds and leaves them
with zero runs, yet their liveranking entry survives — the "entry exists
iff at least one run" invariant is violated because the deletion path
never invokes `RecalculateLiveranking` (whose zero-run branch would have
deleted the entry). -/
theorem deleteRun_leaves_orphan_entry :
    (RunService.DeleteRunSvc bugState 1 1 7).toOption.map
        (fun s' => (runsOf s' 1 7, findLiveranking s' 1 7))
      = some ([], some { competitionId := 1, dossardNumber := 7, numberOfRuns := 1
                         totalPoints := 10, penality := 0, chronoSec := 30 }) := by
  decide

/-! ## Liveranking listing (liveranking_sql.go, ListLiveranking) -/

/-- One row of `ListLiveranking`'s SELECT: entry totals joined with the
participant's identity columns. -/
structure LiverankingView where
  competitionId : Int
  dossardNumber : Int
  firstName : String
  lastName : String
  category : String
  gender : String
  numberOfRuns : Int
  totalPoints : Int
  penality : Int
  chronoSec : Int
deriving DecidableEq

/-- The inner `JOIN participants p ON l.competition_id = p.competition_id
AND l.dossard_number = p.dossard_number`: an entry without a participant
row produces no output row. -/
def viewOf (s : DBState) (l : LiverankingRow) : Option LiverankingView :=
  (findParticipant s l.competitionId l.dossardNumber).map fun p =>
    { competitionId := l.competitionId, dossardNumber := l.dossardNumber
      firstName := p.firstName, lastName := p.lastName
      category := p.category, gender := p.gender
      numberOfRuns := l.numberOfRuns, totalPoints := l.totalPoints
      penality := l.penality, chronoSec := l.chronoSec }

/-- Clause `ORDER BY l.total_points DESC, l.penality ASC, l.chrono_sec DESC` as a
non-strict ordering between output rows (ties in all three keys related
both ways). -/
def rankLE (a b : LiverankingView) : Prop :=
  b.totalPoints < a.totalPoints ∨
  (a.totalPoints = b.totalPoints ∧
    (a.penality < b.penality ∨
      (a.penality = b.penality ∧ b.chronoSec ≤ a.chronoSec)))

instance rankLE.decRel : DecidableRel rankLE := fun a b => by
  unfold rankLE
  infer_instance

instance rankLE.total : IsTotal LiverankingView rankLE :=
  ⟨fun a b => by unfold rankLE; omega⟩

instance rankLE.trans : IsTrans LiverankingView rankLE :=
  ⟨fun a b c hab hbc => by unfold rankLE at *; omega⟩

namespace SQLLiverankingRepository

/-- Method `SQLLiverankingRepository.ListLiveranking`: substitute the default page
size 10 and page number 1 for non-positive inputs, count the competition's
entries, then return the requested window of the joined rows sorted by
points descending, penalty ascending, chrono descending (`ORDER BY` is
modelled as a stable sort), together with the total count. -/
def ListLiveranking (s : DBState) (competitionId pageNumber pageSize : Int) :
    List LiverankingView × Int :=
  let pageSize := if pageSize ≤ 0 then 10 else pageSize
  let pageNumber := if pageNumber ≤ 0 then 1 else pageNumber
  let totalCount : Int :=
    ((s.liverankings.filter fun l => l.competitionId == competitionId).length : Int)
  let offset := (pageNumber - 1) * pageSize
  let joined :=
    (s.liverankings.filter fun l => l.competitionId == competitionId).filterMap (viewOf s)
  let sorted := List.insertionSort rankLE joined
  ((sorted.drop offset.toNat).take pageSize.toNat, totalCount)

end SQLLiverankingRepository

/-- C5.  `ListLiveranking` returns the total count of the competition's
entries, and the page it returns is the `((page-1)·size, size)` window —
with page 1 substituted for a non-positive page number and size 10 for a
non-positive page size — of the competition's joined rows sorted by
total points descending, then penalty ascending, then chrono descending;
every returned row is one of the competition's joined rows and the page is
sorted under that ordering. -/
theorem listLiveranking_pagination_and_order (s : DBState) (c pg sz : Int) :
    (SQLLiverankingRepository.ListLiveranking s c pg sz).2
      = (((s.liverankings.filter fun l => l.competitionId == c).length : Int)) ∧
    (SQLLiverankingRepository.ListLiveranking s c pg sz).1
      = ((List.insertionSort rankLE
            ((s.liverankings.filter fun l => l.competitionId == c).filterMap (viewOf s))).drop
          (((if pg ≤ 0 then 1 else pg) - 1) * (if sz ≤ 0 then 10 else sz)).toNat).take
          (if sz ≤ 0 then 10 else sz).toNat ∧
    List.Sorted rankLE (SQLLiverankingRepository.ListLiveranking s c pg sz).1 ∧
    (∀ v ∈ (SQLLiverankingRepository.ListLiveranking s c pg sz).1,
      v ∈ (s.liverankings.filter fun l => l.competitionId == c).filterMap (viewOf s)) := by
  refine ⟨rfl, rfl, ?_, ?_⟩
  · have hsorted : List.Sorted rankLE (List.insertionSort rankLE
        ((s.liverankings.filter fun l => l.competitionId == c).filterMap (viewOf s))) :=
      List.sorted_insertionSort rankLE _
    have hsub : (SQLLiverankingRepository.ListLiveranking s c pg sz).1.Sublist
        (List.insertionSort rankLE
          ((s.liverankings.filter fun l => l.competitionId == c).filterMap (viewOf s))) :=
      List.Sublist.trans (List.take_sublist _ _) (List.drop_sublist _ _)
    exact hsorted.sublist hsub
  · intro v hv
    have hsub : (SQLLiverankingRepository.ListLiveranking s c pg sz).1.Sublist
        (List.insertionSort rankLE
          ((s.liverankings.filter fun l => l.competitionId == c).filterMap (viewOf s))) :=
      List.Sublist.trans (List.take_sublist _ _) (List.drop_sublist _ _)
    exact (List.perm_insertionSort rankLE _).mem_iff.mp (hsub.mem hv)

/-- State with three rankable entries for the C5 witness. -/
def witState5 : DBState :=
  { competitions := [1]
    participants :=
      [{ competitionId := 1, dossardNumber := 7, firstName := "a"
         lastName := "b", category := "junior", gender := "H", club := "" },
       { competitionId := 1, dossardNumber := 8, firstName := "c"
         lastName := "d", category := "junior", gender := "F", club := "" },
       { competitionId := 1, dossardNumber := 9, firstName := "e"
         lastName := "f", category := "senior", gender := "H", club := "" }]
    scales := [witScale]
    runs := []
    liverankings :=
      [{ competitionId := 1, dossardNumber := 7, numberOfRuns := 1
         totalPoints := 10, penality := 0, chronoSec := 30 },
       { competitionId := 1, dossardNumber := 8, numberOfRuns := 2
         totalPoints := 25, penality := 4, chronoSec := 61 },
       { competitionId := 1, dossardNumber := 9, numberOfRuns := 1
         totalPoints := 25, penality := 2, chronoSec := 45 }] }

/-- Witness for C5 at a concrete state with defaulted page arguments. -/
theorem listLiveranking_pagination_and_order_witness :
    List.Sorted rankLE (SQLLiverankingRepository.ListLiveranking witState5 1 0 0).1 ∧
    (SQLLiverankingRepository.ListLiveranking witState5 1 0 0).2 = 3 := by
  obtain ⟨h1, _, h3, _⟩ := listLiveranking_pagination_and_order witState5 1 0 0
  exact ⟨h3, by rw [h1]; decide⟩

/-! ## Results export generator (competition.go, generateSheetContent) -/

namespace CompetitionService

/-- Type `ZoneResult`: the three display values of one run slot, or an error
placeholder (the Go zero value with `IsError: true`). -/
structure ZoneResult where
  points : Int
  penalty : Int
  time : Int
  isError : Bool
deriving DecidableEq

/-- Type `ParticipantResult`: one export row before rendering. -/
structure ParticipantResult where
  participant : Participant
  zoneResults : List ZoneResult
  totalPoints : Int
  totalPenalty : Int
  totalTime : Int
  hasError : Bool
deriving DecidableEq

/-- Accumulator of `generateSheetContent`'s per-zone loop. -/
structure ZoneAcc where
  slots : List ZoneResult
  totalPoints : Int
  totalPenalty : Int
  totalTime : Int
  hasError : Bool
deriving DecidableEq

/-- The Go zero-value `ZoneResult{IsError: true}` placeholder. -/
def errSlot : ZoneResult :=
  { points := 0, penalty := 0, time := 0, isError := true }

/-- One iteration of the per-zone loop: a zone whose observed run count
differs from the expected count contributes `expected` error slots and
flags the row; a zone with the expected count contributes one computed
slot per run, and its runs are added to the totals only while the row is
not yet flagged (`if !result.HasError` in the source). -/
def processZone (scales : List (String × Scale)) (category : String)
    (participantRuns : List Run) (expected : Nat) (acc : ZoneAcc) (zone : String) : ZoneAcc :=
  let zoneRuns := participantRuns.filter (·.zone == zone)
  if zoneRuns.length ≠ expected then
    { acc with slots := acc.slots ++ List.replicate expected errSlot, hasError := true }
  else
    let newSlots := zoneRuns.map fun run =>
      { points := calculateRunPoints run scales category zone
        penalty := run.penality, time := run.chronoSec, isError := false }
    if acc.hasError then
      { acc with slots := acc.slots ++ newSlots }
    else
      { acc with slots := acc.slots ++ newSlots
                 totalPoints := acc.totalPoints +
                   (zoneRuns.map fun run => calculateRunPoints run scales category zone).sum
                 totalPenalty := acc.totalPenalty + (zoneRuns.map (·.penality)).sum
                 totalTime := acc.totalTime + (zoneRuns.map (·.chronoSec)).sum }

/-- The result computed for one participant: the per-zone loop folded over
the category's zones in order. -/
def computeParticipantResult (scales : List (String × Scale)) (zones : List String)
    (expected : Nat) (participant : Participant) (participantRuns : List Run) :
    ParticipantResult :=
  let acc := zones.foldl (processZone scales participant.category participantRuns expected)
    { slots := [], totalPoints := 0, totalPenalty := 0, totalTime := 0, hasError := false }
  { participant := participant, zoneResults := acc.slots
    totalPoints := acc.totalPoints, totalPenalty := acc.totalPenalty
    totalTime := acc.totalTime, hasError := acc.hasError }

/-- The slots one zone contributes (the closed form of the loop body). -/
def zoneBlock (scales : List (String × Scale)) (category : String)
    (participantRuns : List Run) (expected : Nat) (zone : String) : List ZoneResult :=
  let zoneRuns := participantRuns.filter (·.zone == zone)
  if zoneRuns.length ≠ expected then
    List.replicate expected errSlot
  else
    zoneRuns.map fun run =>
      { points := calculateRunPoints run scales category zone
        penalty := run.penality, time := run.chronoSec, isError := false }

/-- The `sort.Slice` comparator, as the non-strict ordering its output rows
satisfy: error rows after all non-error rows, then total points
descending, total penalty ascending, total time ascending. -/
def resultLE (a b : ParticipantResult) : Prop :=
  (a.hasError = false ∧ b.hasError = true) ∨
  (a.hasError = b.hasError ∧
    (b.totalPoints < a.totalPoints ∨
      (a.totalPoints = b.totalPoints ∧
        (a.totalPenalty < b.totalPenalty ∨
          (a.totalPenalty = b.totalPenalty ∧ a.totalTime ≤ b.totalTime)))))

instance resultLE.decRel : DecidableRel resultLE := fun a b => by
  unfold resultLE
  infer_instance

instance resultLE.total : IsTotal ParticipantResult resultLE :=
  ⟨fun a b => by
    unfold resultLE
    cases a.hasError <;> cases b.hasError <;> simp <;> omega⟩

instance resultLE.trans : IsTrans ParticipantResult resultLE :=
  ⟨fun a b c hab hbc => by
    unfold resultLE at *
    cases ha : a.hasError <;> cases hb : b.hasError <;> cases hc : c.hasError <;>
      rw [ha, hb] at hab <;> rw [hb, hc] at hbc <;> simp at * <;> omega⟩

/-- One cell of the rendered sheet. -/
inductive Cell where
  | str (s : String)
  | num (n : Int)
deriving DecidableEq

/-- The three cells one slot renders: numbers, or the "ERROR" marker. -/
def renderZoneResult (zr : ZoneResult) : List Cell :=
  if zr.isError then [Cell.str "ERROR", Cell.str "ERROR", Cell.str "ERROR"]
  else [Cell.num zr.points, Cell.num zr.penalty, Cell.num zr.time]

/-- One data row: position, identity, every slot's three cells in order,
then the four total cells — "ERROR" markers when the row is flagged,
otherwise the three totals and the position-derived points-earned value
(the `utils.GetPointsEarned` lookup is an external collaborator, passed in
as a function). -/
def renderRow (pointsEarned : Int → Int) (position : Int) (res : ParticipantResult) :
    List Cell :=
  [Cell.num position, Cell.num res.participant.dossardNumber,
   Cell.str res.participant.lastName, Cell.str res.participant.firstName,
   Cell.str res.participant.club] ++
  (res.zoneResults.map renderZoneResult).flatten ++
  (if res.hasError then
    [Cell.str "ERROR", Cell.str "ERROR", Cell.str "ERROR", Cell.str "ERROR"]
  else
    [Cell.num res.totalPoints, Cell.num res.totalPenalty, Cell.num res.totalTime,
     Cell.num (pointsEarned position)])

/-- The per-zone header triples: doubled pass over the zones when the
category has exactly two zones, single pass otherwise. -/
def zoneHeaders (zones : List String) : List String :=
  if zones.length == 2 then
    ((zones ++ zones).map fun z =>
      [z ++ " Points", z ++ " Penalités", z ++ " Temps"]).flatten
  else
    (zones.map fun z => [z ++ " Points", z ++ " Penalités", z ++ " Temps"]).flatten

/-- The `fmt.Sprintf("%d_%d", competitionID, dossard)` runs-map key. -/
def runKey (competitionId dossard : Int) : String :=
  toString competitionId ++ "_" ++ toString dossard

/-- Function `generateSheetContent` for one (category, gender) sheet: the header
row, then one rendered row per participant, sorted by the export ordering
with 1-based positions in row order. -/
def generateSheetContent (pointsEarned : Int → Int) (participants : List Participant)
    (zones : List String) (runs : List (String × List Run))
    (scales : List (String × Scale)) (competitionId : Int) : List (List Cell) :=
  let expected : Nat := if zones.length == 2 then 2 else 1
  let results := participants.map fun p =>
    computeParticipantResult scales zones expected p
      (((runs.find? fun kv => kv.1 == runKey competitionId p.dossardNumber).map
          Prod.snd).getD [])
  let sorted := List.insertionSort resultLE results
  ((["Position", "Dossard", "Nom", "Prénom", "Club"] ++ zoneHeaders zones ++
      ["Total Points", "Total Penalités", "Total Temps", "Points Gagnés"]).map Cell.str) ::
    (sorted.enum.map fun ir => renderRow pointsEarned ((ir.1 : Int) + 1) ir.2)

end CompetitionService

/-- Closed form of the per-zone loop: the slots are the concatenation of
each zone's block in zone order, and the error flag is set exactly when
some zone's observed run count differs from the expected count. -/
theorem processZones_spec (scales : List (String × Scale)) (category : String)
    (pruns : List Run) (expected : Nat) :
    ∀ (zones : List String) (acc : CompetitionService.ZoneAcc),
      (zones.foldl (CompetitionService.processZone scales category pruns expected) acc).slots
        = acc.slots ++
          (zones.map (CompetitionService.zoneBlock scales category pruns expected)).flatten ∧
      (zones.foldl (CompetitionService.processZone scales category pruns expected) acc).hasError
        = (acc.hasError ||
            zones.any fun z => decide ((pruns.filter (·.zone == z)).length ≠ expected)) := by
  intro zones
  induction zones with
  | nil => intro acc; simp
  | cons z zs ih =>
    intro acc
    rw [List.foldl_cons]
    by_cases hz : (pruns.filter (·.zone == z)).length ≠ expected
    · have hstep : CompetitionService.processZone scales category pruns expected acc z =
          { slots := acc.slots ++ List.replicate expected CompetitionService.errSlot
            totalPoints := acc.totalPoints, totalPenalty := acc.totalPenalty
            totalTime := acc.totalTime, hasError := true } := by
        simp only [CompetitionService.processZone, if_pos hz]
      rw [hstep]
      obtain ⟨ihs, ihe⟩ := ih _
      constructor
      · rw [ihs]
        simp only [CompetitionService.zoneBlock, if_pos hz, List.map_cons, List.flatten_cons,
          List.append_assoc]
      · rw [ihe]
        simp [hz]
    · have hstep : (CompetitionService.processZone scales category pruns expected acc z).slots
          = acc.slots ++ CompetitionService.zoneBlock scales category pruns expected z ∧
          (CompetitionService.processZone scales category pruns expected acc z).hasError
          = acc.hasError ∧
          (CompetitionService.processZone scales category pruns expected acc z).totalPoints
          = (CompetitionService.processZone scales category pruns expected acc z).totalPoints := by
        simp only [CompetitionService.processZone, if_neg hz,
          CompetitionService.zoneBlock]
        by_cases hacc : acc.hasError <;> simp [hacc, hz]
      obtain ⟨ihs, ihe⟩ := ih (CompetitionService.processZone scales category pruns expected acc z)
      constructor
      · rw [ihs, hstep.1]
        simp only [List.map_cons, List.flatten_cons, List.append_assoc]
      · rw [ihe, hstep.2.1]
        have hc := not_ne_iff.mp hz
        simp [hc]

/-- C8 (amended).  In the export, a zone whose observed run count differs
from the expected count contributes `expected` error slots and flags the
whole row; the row's slot list is exactly the concatenation of the
per-zone blocks, so zones with the expected count — also those after an
error zone — still render their computed numbers (not "ERROR", which is
where the original claim fails); a flagged row renders its four total
cells as "ERROR" markers (its totals are not shown); and sorting keeps
every row, placing all flagged rows after all unflagged ones. -/
theorem export_error_row_handling (scales : List (String × Scale)) (zones : List String)
    (expected : Nat) (participant : Participant) (pruns : List Run)
    (pe : Int → Int) (pos : Int) (results : List CompetitionService.ParticipantResult) :
    (CompetitionService.computeParticipantResult scales zones expected
        participant pruns).zoneResults
      = (zones.map (CompetitionService.zoneBlock scales participant.category
          pruns expected)).flatten ∧
    ((CompetitionService.computeParticipantResult scales zones expected
        participant pruns).hasError
      = zones.any fun z => decide ((pruns.filter (·.zone == z)).length ≠ expected)) ∧
    (∀ z ∈ zones, (pruns.filter (·.zone == z)).length ≠ expected →
      CompetitionService.zoneBlock scales participant.category pruns expected z
        = List.replicate expected CompetitionService.errSlot ∧
      (CompetitionService.computeParticipantResult scales zones expected
          participant pruns).hasError = true) ∧
    (∀ res : CompetitionService.ParticipantResult, res.hasError = true →
      (CompetitionService.renderRow pe pos res).reverse.take 4
        = List.replicate 4 (CompetitionService.Cell.str "ERROR")) ∧
    (List.insertionSort CompetitionService.resultLE results).Perm results ∧
    (∀ i j (hij : i < j)
        (hj : j < (List.insertionSort CompetitionService.resultLE results).length),
      ((List.insertionSort CompetitionService.resultLE results).get
          ⟨i, lt_trans hij hj⟩).hasError = true →
      ((List.insertionSort CompetitionService.resultLE results).get ⟨j, hj⟩).hasError
        = true) := by
  obtain ⟨hslots, herr⟩ := processZones_spec scales participant.category pruns expected zones
    { slots := [], totalPoints := 0, totalPenalty := 0, totalTime := 0, hasError := false }
  refine ⟨?_, ?_, ?_, ?_, ?_, ?_⟩
  · simpa [CompetitionService.computeParticipantResult] using hslots
  · simpa [CompetitionService.computeParticipantResult] using herr
  · intro z hz hcount
    constructor
    · simp only [CompetitionService.zoneBlock, if_pos hcount]
    · simp only [CompetitionService.computeParticipantResult]
      rw [herr, Bool.false_or, List.any_eq_true]
      exact ⟨z, hz, decide_eq_true hcount⟩
  · intro res hres
    simp [CompetitionService.renderRow, hres, List.reverse_append, List.take]
  · exact List.perm_insertionSort _ _
  · intro i j hij hj hi
    have hsorted := List.sorted_insertionSort CompetitionService.resultLE results
    have hrel := List.Sorted.rel_get_of_lt hsorted
      (show (⟨i, lt_trans hij hj⟩ : Fin _) < ⟨j, hj⟩ from hij)
    rcases hrel with ⟨hfalse, _⟩ | ⟨heq, _⟩
    · rw [hi] at hfalse
      cases hfalse
    · rw [← heq, hi]

/-- Participant for the C8 counterexample. -/
def part8 : Participant :=
  { competitionId := 1, dossardNumber := 7, firstName := "y", lastName := "x"
    category := "junior", gender := "H", club := "c" }

/-- The counterexample's run on zone b (door 1, worth 10). -/
def run8b : Run :=
  { competitionId := 1, dossard := 7, runNumber := 1, zone := "b"
    door1 := true, door2 := false, door3 := false
    door4 := false, door5 := false, door6 := false
    penality := 2, chronoSec := 40, refereeId := 3 }

/-- The counterexample's run on zone c (door 1, worth 7). -/
def run8c : Run :=
  { run8b with runNumber := 2, zone := "c" }

/-- The counterexample's scale map for zones b and c of category junior. -/
def scales8 : List (String × Scale) :=
  [("junior_b", { competitionId := 1, category := "junior", zone := "b"
                  pointsDoor1 := 10, pointsDoor2 := 0, pointsDoor3 := 0
                  pointsDoor4 := 0, pointsDoor5 := 0, pointsDoor6 := 0 }),
   ("junior_c", { competitionId := 1, category := "junior", zone := "c"
                  pointsDoor1 := 7, pointsDoor2 := 0, pointsDoor3 := 0
                  pointsDoor4 := 0, pointsDoor5 := 0, pointsDoor6 := 0 })]

/-- C8 (counterexample).  Category with zones a, b, c (one expected run
each); the participant has no run in zone a (so that zone errors and the
row is flagged) but valid runs in the later zones b and c.  The claim says
every per-zone cell after the error renders "ERROR"; the generated sheet
instead shows the computed number 10 in zone b's points cell (row 1,
cell 8, counting the five identity cells and zone a's three error cells). -/
theorem export_error_rows_counterexample :
    (((CompetitionService.generateSheetContent (fun _ => 0) [part8] ["a", "b", "c"]
        [(CompetitionService.runKey 1 7, [run8b, run8c])] scales8 1).getD 1 []).getD 8
        (CompetitionService.Cell.str ""))
      = CompetitionService.Cell.num 10 ∧
    CompetitionService.Cell.num 10 ≠ CompetitionService.Cell.str "ERROR" := by
  constructor
  · decide
  · decide

/-- A flagged result for the C8 witness. -/
def res8 : CompetitionService.ParticipantResult :=
  { participant := part8, zoneResults := []
    totalPoints := 0, totalPenalty := 0, totalTime := 0, hasError := true }

/-- Witness for the amended C8 at concrete inputs: a flagged row's last
four cells all render "ERROR". -/
theorem export_error_row_handling_witness :
    (CompetitionService.renderRow (fun _ => 0) 1 res8).reverse.take 4
      = List.replicate 4 (CompetitionService.Cell.str "ERROR") :=
  (export_error_row_handling scales8 ["a", "b", "c"] 1 part8 [run8b, run8c]
    (fun _ => 0) 1 []).2.2.2.1 res8 (by decide)

/-! ## Bulk participant import (competition.go, AddParticipants) -/

/-- Function `strings.TrimSpace` (ASCII whitespace suffices for the modelled data). -/
def goTrimSpace (s : String) : String :=
  String.mk (((s.toList.dropWhile Char.isWhitespace).reverse.dropWhile
    Char.isWhitespace).reverse)

/-- Function `strings.ToUpper` on the ASCII range. -/
def goToUpper (s : String) : String :=
  String.mk (s.toList.map Char.toUpper)

/-- Function `strings.ToLower` on the ASCII range. -/
def goToLower (s : String) : String :=
  String.mk (s.toList.map Char.toLower)

/-- Whether `sub` occurs inside `l` (`strings.Contains`). -/
def containsSub (l sub : List Char) : Bool :=
  match l with
  | [] => sub.isEmpty
  | _ :: rest => sub.isPrefixOf l || containsSub rest sub

/-- Function `strings.Contains s sub`. -/
def goContains (s sub : String) : Bool :=
  containsSub s.toList sub.toList

/-- Accumulated value of a digit string. -/
def digitsToNat (cs : List Char) : Nat :=
  cs.foldl (fun a c => a * 10 + (c.toNat - 48)) 0

/-- Function `strconv.ParseInt(s, 10, 32)`: optional sign, at least one digit, all
digits, value within the signed 32-bit range; anything else is an error. -/
def parseIntDec32 (str : String) : Option Int :=
  match str.toList with
  | [] => none
  | c :: cs =>
    let sign : Int := if c = '-' then -1 else 1
    let ds : List Char := if c = '-' ∨ c = '+' then cs else c :: cs
    if ds = [] then none
    else if ds.all Char.isDigit then
      let v : Int := sign * (digitsToNat ds : Int)
      if -(2 ^ 31) ≤ v ∧ v ≤ 2 ^ 31 - 1 then some v else none
    else none

namespace SQLParticipantRepository

/-- Method `SQLParticipantRepository.CreateParticipant`: the INSERT fails on a
duplicate (competition_id, dossard_number) primary key, which
`isDuplicateKeyError` converts to `ErrDuplicateParticipant`. -/
def CreateParticipant (s : DBState) (p : Participant) : Except Err DBState :=
  if s.participants.any fun q =>
      q.competitionId == p.competitionId && q.dossardNumber == p.dossardNumber then
    Except.error Err.duplicateParticipant
  else
    Except.ok { s with participants := s.participants ++ [p] }

end SQLParticipantRepository

namespace CompetitionService

/-- Helper `isParticipantAlreadyExistsError`: the import's soft-skip test —
whether the lower-cased error text contains the substring "duplicate". -/
def isParticipantAlreadyExistsError (e : Err) : Bool :=
  goContains (goToLower e.message) "duplicate"

/-- The import's per-row loop (everything after the skipped header):
fewer than 5 columns, an unparseable dossard or a gender other than H/F
abort with an error, keeping what was already inserted; a create failure
recognized by `isParticipantAlreadyExistsError` is skipped, any other
create failure aborts. -/
def processParticipantRows (competitionID : Int) :
    DBState → List (List String) → DBState × Option Err
  | s, [] => (s, none)
  | s, row :: rest =>
    if row.length < 5 then (s, some Err.invalidRowFormat)
    else
      match parseIntDec32 (goTrimSpace (row.getD 0 "")) with
      | none => (s, some Err.invalidDossardNumber)
      | some dossard =>
        let categoryFromFile := goTrimSpace (row.getD 1 "")
        let lastName := goTrimSpace (row.getD 2 "")
        let firstName := goTrimSpace (row.getD 3 "")
        let gender := goToUpper (goTrimSpace (row.getD 4 ""))
        let club := if row.length > 5 then goTrimSpace (row.getD 5 "") else ""
        if gender ≠ "H" ∧ gender ≠ "F" then (s, some Err.invalidGender)
        else
          match SQLParticipantRepository.CreateParticipant s
              { competitionId := competitionID, dossardNumber := dossard
                firstName := firstName, lastName := lastName
                category := categoryFromFile, gender := gender, club := club } with
          | Except.error e =>
            if isParticipantAlreadyExistsError e then
              processParticipantRows competitionID s rest
            else (s, some (Err.createParticipantFailed e))
          | Except.ok s' => processParticipantRows competitionID s' rest

/-- Method `CompetitionService.AddParticipants` on already-parsed rows (the
CSV/Excel readers are the file-parsing collaborator): require the
competition, require a header plus at least one data row, skip the header,
then run the per-row loop.  The state is returned alongside the optional
error because failures keep the already-inserted rows (no rollback). -/
def AddParticipants (s : DBState) (competitionID : Int)
    (rows : List (List String)) : DBState × Option Err :=
  if s.competitions.contains competitionID = false then
    (s, some Err.competitionNotFound)
  else if rows.length < 2 then (s, some Err.invalidFileFormat)
  else processParticipantRows competitionID s (rows.drop 1)

end CompetitionService

/-- The pre-existing participant (dossard 7) for the C9 scenario. -/
def pExisting9 : Participant :=
  { competitionId := 1, dossardNumber := 7, firstName := "a", lastName := "b"
    category := "junior", gender := "H", club := "" }

/-- Base state for the C9 scenario. -/
def sC9 : DBState :=
  { competitions := [1], participants := [pExisting9]
    scales := [], runs := [], liverankings := [] }

/-- The import file: header, a valid row (dossard 8), a row reusing the
existing dossard 7, and another valid row (dossard 9). -/
def rowsC9 : List (List String) :=
  [["dossard", "category", "nom", "prenom", "genre"],
   ["8", "junior", "x", "y", "h"],
   ["7", "junior", "z", "w", "F"],
   ["9", "junior", "u", "v", "H"]]

/-- The participant row 2 inserts. -/
def p8C9 : Participant :=
  { competitionId := 1, dossardNumber := 8, firstName := "y", lastName := "x"
    category := "junior", gender := "H", club := "" }

/-- C9 (failing input).  The repository converts the uniqueness violation
to `ErrDuplicateParticipant`, whose message — "participant with this
competition ID and dossard number already exists" — does not contain the
substring "duplicate", so `isParticipantAlreadyExistsError` rejects it and
the duplicate row ABORTS the import instead of being skipped: dossard 8
(inserted before the duplicate) is kept, dossard 9 is never processed, and
the operation returns an error rather than succeeding.  The header-skip
and the keep-prior-inserts behaviour hold, but the soft-skip promised by
the claim (and by the code's own comment, "continue with other
participants") does not. -/
theorem import_duplicate_aborts :
    CompetitionService.AddParticipants sC9 1 rowsC9
      = ({ sC9 with participants := [pExisting9, p8C9] },
         some (Err.createParticipantFailed Err.duplicateParticipant)) ∧
    CompetitionService.isParticipantAlreadyExistsError Err.duplicateParticipant = false := by
  constructor
  · decide
  · decide

end CrossApi
